import Mathlib

/-!
Verification of the real-time duplex voice session manager of
`src/hooks/useLiveSession.ts` (the `useLiveSession` React hook).

The development contains three shallow embeddings, each translated from the
source file:

* a playback-scheduler model (the audio branch of the `onmessage` callback and
  the `source.onended` callback, lines 249-286 of the source);
* a tool-call / command-channel model (the `msg.toolCall` branch of
  `onmessage`, lines 289-307);
* an event-step model of the whole session orchestrator (connect, disconnect,
  the transport callbacks, the retry logic and the timers).

Device-clock values and buffer durations are modelled as rationals; the
mutable refs of the hook become fields of explicit state records, and each
asynchronous callback becomes one case of a step function on that state.
-/

namespace Friday

/-! ### Playback scheduler

Translated from `src/hooks/useLiveSession.ts`:

```
const now = audioCtx.currentTime;
const startTime = Math.max(now, nextStartTimeRef.current);
source.start(startTime);
nextStartTimeRef.current = startTime + buffer.duration;
audioQueueRef.current.push(source);
source.onended = () => {
    const idx = audioQueueRef.current.indexOf(source);
    if (idx > -1) audioQueueRef.current.splice(idx, 1);
    if (audioQueueRef.current.length === 0) {
        isPlayingRef.current = false;
        setVoiceState('listening');
        nextStartTimeRef.current = audioCtx.currentTime;
    }
};
```
-/

/-- One scheduled playback buffer: its scheduled start time (the argument of
`source.start`) and its duration (`buffer.duration`), in seconds of the
device clock `audioCtx.currentTime`. -/
structure Buf where
  start : ℚ
  dur : ℚ
deriving DecidableEq, Repr

/-- State of the playback scheduler: `nextStartTime` is
`nextStartTimeRef.current`; `queue` is `audioQueueRef.current`, the FIFO list
of sources that have been scheduled and have not yet ended; `sched` is a ghost
history of every buffer ever scheduled, in scheduling order, used to state
ordering properties; `lastClock` is a ghost record of the device-clock reading
at the most recent event, used to state clock monotonicity. -/
structure PlayState where
  nextStartTime : ℚ
  queue : List Buf
  sched : List Buf
  lastClock : ℚ
deriving DecidableEq

/-- Events of the playback scheduler. `audio now dur` is the arrival of an
inbound audio payload, decoded to a buffer of duration `dur`, while the device
clock reads `now`; `ended now` is the `onended` callback of the earliest live
source firing when the device clock reads `now`.  Because scheduled windows
are sequential, sources end in FIFO order, so the spliced-out source is the
head of the queue. -/
inductive PlayEvent
  | audio (now dur : ℚ)
  | ended (now : ℚ)
deriving DecidableEq

/-- The scheduler state at the start of a connection
(`nextStartTimeRef.current = 0`, empty queue). -/
def pinit : PlayState := ⟨0, [], [], 0⟩

/-- One scheduler step, translated line for line from the source: an audio
arrival computes `startTime = max(now, nextStartTime)`, schedules the buffer
at that time, advances the cursor to `startTime + dur` and pushes the source;
an `onended` callback removes the head source and, if the queue has become
empty, resets the cursor to the current device clock. -/
def pstep (e : PlayEvent) (s : PlayState) : PlayState :=
  match e with
  | .audio now dur =>
      let st := max now s.nextStartTime
      { nextStartTime := st + dur
        queue := s.queue ++ [⟨st, dur⟩]
        sched := s.sched ++ [⟨st, dur⟩]
        lastClock := now }
  | .ended now =>
      let q := s.queue.tail
      if q.isEmpty then
        { nextStartTime := now, queue := q, sched := s.sched, lastClock := now }
      else
        { s with queue := q, lastClock := now }

/-- End time of the head of the live queue (`0` for an empty queue; only used
under a nonemptiness hypothesis). -/
def headEnd : List Buf → ℚ
  | [] => 0
  | b :: _ => b.start + b.dur

/-- Physical admissibility of an event in a state: durations are nonnegative
(a buffer of `n` samples lasts `n / 24000` seconds), the device clock is
monotone across events, and an `onended` callback fires only while its source
is still queued and no earlier than that source's scheduled end time. -/
def PValid (s : PlayState) : PlayEvent → Prop
  | .audio now dur => 0 ≤ dur ∧ s.lastClock ≤ now
  | .ended now => s.queue ≠ [] ∧ s.lastClock ≤ now ∧ headEnd s.queue ≤ now

instance instDecPValid (s : PlayState) (e : PlayEvent) : Decidable (PValid s e) :=
  match e with
  | .audio _ _ => inferInstanceAs (Decidable (_ ∧ _))
  | .ended _ => inferInstanceAs (Decidable (_ ∧ _ ∧ _))

/-- Run a chronological list of events from a given state. -/
def prunFrom (s : PlayState) : List PlayEvent → PlayState
  | [] => s
  | e :: tr => prunFrom (pstep e s) tr

/-- Run a chronological list of events from the initial state. -/
def prun (tr : List PlayEvent) : PlayState := prunFrom pinit tr

/-- Every event of the trace is physically admissible in the state it meets. -/
def PValidFrom (s : PlayState) : List PlayEvent → Prop
  | [] => True
  | e :: tr => PValid s e ∧ PValidFrom (pstep e s) tr

instance instDecPValidFrom (s : PlayState) (tr : List PlayEvent) :
    Decidable (PValidFrom s tr) :=
  match tr with
  | [] => inferInstanceAs (Decidable True)
  | e :: tr =>
      have := instDecPValidFrom (pstep e s) tr
      inferInstanceAs (Decidable (_ ∧ _))

/-- A physically admissible trace from the initial scheduler state. -/
def PValidTrace (tr : List PlayEvent) : Prop := PValidFrom pinit tr

instance instDecPValidTrace (tr : List PlayEvent) : Decidable (PValidTrace tr) :=
  inferInstanceAs (Decidable (PValidFrom pinit tr))

/-- Two consecutively scheduled buffers do not overlap: the later one starts
at or after the earlier one's end. -/
def NoOverlap (a b : Buf) : Prop := a.start + a.dur ≤ b.start

/-- Scheduled start times are non-decreasing. -/
def StartMono (a b : Buf) : Prop := a.start ≤ b.start

/-- Last scheduled end time of the history (`0` when nothing was scheduled,
matching the initial cursor). -/
def lastEnd (l : List Buf) : ℚ := (l.getLast?).elim 0 fun b => b.start + b.dur

/-- Scheduler invariant: the schedule history is chainwise non-overlapping
with non-decreasing starts and nonnegative durations, the live queue is a
suffix of the history, and the cursor lies between the last scheduled end and
the larger of the last clock reading and that end. -/
def PInv (s : PlayState) : Prop :=
  List.Chain' NoOverlap s.sched ∧
  List.Chain' StartMono s.sched ∧
  (∀ b ∈ s.sched, 0 ≤ b.dur) ∧
  List.IsSuffix s.queue s.sched ∧
  lastEnd s.sched ≤ s.nextStartTime ∧
  s.nextStartTime ≤ max s.lastClock (lastEnd s.sched)

theorem pinv_init : PInv pinit := by
  refine ⟨List.chain'_nil, List.chain'_nil, ?_, ⟨[], rfl⟩, ?_, ?_⟩ <;>
    simp [pinit, lastEnd]

theorem lastEnd_concat (l : List Buf) (b : Buf) :
    lastEnd (l ++ [b]) = b.start + b.dur := by
  simp [lastEnd]

theorem chain'_concat_of_lastEnd {R : Buf → Buf → Prop} {l : List Buf} {x : Buf}
    (hc : List.Chain' R l) (hx : ∀ a, l.getLast? = some a → R a x) :
    List.Chain' R (l ++ [x]) := by
  rw [List.chain'_append]
  refine ⟨hc, List.chain'_singleton x, ?_⟩
  intro a ha y hy
  simp only [List.head?_cons, Option.mem_def, Option.some.injEq] at hy
  subst hy
  exact hx a ha

theorem getLast?_eq_of_suffix_single {b : Buf} {l : List Buf}
    (h : List.IsSuffix [b] l) : l.getLast? = some b := by
  obtain ⟨t, rfl⟩ := h
  simp

theorem lastEnd_le_of_getLast? {l : List Buf} {b : Buf}
    (h : l.getLast? = some b) : lastEnd l = b.start + b.dur := by
  simp [lastEnd, h]

theorem suffix_concat_of_suffix {q l : List Buf} (x : Buf)
    (h : List.IsSuffix q l) : List.IsSuffix (q ++ [x]) (l ++ [x]) := by
  obtain ⟨t, rfl⟩ := h
  exact ⟨t, (List.append_assoc t q [x]).symm⟩

theorem pinv_step (s : PlayState) (e : PlayEvent)
    (hI : PInv s) (hV : PValid s e) : PInv (pstep e s) := by
  obtain ⟨hno, hmono, hdur, hsuf, hlo, hhi⟩ := hI
  cases e with
  | audio now dur =>
      obtain ⟨hdur0, hclk⟩ := hV
      have hst : s.nextStartTime ≤ max now s.nextStartTime := le_max_right _ _
      simp only [pstep]
      refine ⟨?_, ?_, ?_, ?_, ?_, ?_⟩
      · refine chain'_concat_of_lastEnd hno fun a ha => ?_
        have h1 : lastEnd s.sched = a.start + a.dur := lastEnd_le_of_getLast? ha
        have h2 : a.start + a.dur ≤ s.nextStartTime := h1 ▸ hlo
        exact le_trans h2 hst
      · refine chain'_concat_of_lastEnd hmono fun a ha => ?_
        have hmem : a ∈ s.sched := List.mem_of_getLast?_eq_some ha
        have h0 : 0 ≤ a.dur := hdur a hmem
        have h1 : lastEnd s.sched = a.start + a.dur := lastEnd_le_of_getLast? ha
        have h2 : a.start + a.dur ≤ s.nextStartTime := h1 ▸ hlo
        have h3 : a.start ≤ a.start + a.dur := by linarith
        exact le_trans (le_trans h3 h2) hst
      · intro b hb
        rcases List.mem_append.1 hb with hb | hb
        · exact hdur b hb
        · simp only [List.mem_singleton] at hb
          subst hb
          exact hdur0
      · exact suffix_concat_of_suffix _ hsuf
      · rw [lastEnd_concat]
      · rw [lastEnd_concat]
        exact le_max_right _ _
  | ended now =>
      obtain ⟨hne, hclk, hend⟩ := hV
      cases hq : s.queue with
      | nil => exact absurd hq hne
      | cons b rest =>
        cases rest with
        | nil =>
            have hlast : s.sched.getLast? = some b := by
              refine getLast?_eq_of_suffix_single ?_
              rw [← hq]; exact hsuf
            have hle : lastEnd s.sched = b.start + b.dur :=
              lastEnd_le_of_getLast? hlast
            have hbend : b.start + b.dur ≤ now := by
              simpa [hq, headEnd] using hend
            simp only [pstep, hq, List.tail_cons, List.isEmpty_nil, if_true]
            exact ⟨hno, hmono, hdur, List.nil_suffix, by rw [hle]; exact hbend,
              le_max_left _ _⟩
        | cons c rest2 =>
            simp only [pstep, hq, List.tail_cons, List.isEmpty_cons, if_false]
            refine ⟨hno, hmono, hdur, ?_, hlo, ?_⟩
            · exact List.IsSuffix.trans (List.suffix_cons b (c :: rest2))
                (hq ▸ hsuf)
            · exact le_trans hhi (max_le_max hclk le_rfl)

theorem pinv_prunFrom (tr : List PlayEvent) :
    ∀ s : PlayState, PInv s → PValidFrom s tr → PInv (prunFrom s tr) := by
  induction tr with
  | nil => intro s hI _; exact hI
  | cons e tr ih =>
      intro s hI hV
      exact ih (pstep e s) (pinv_step s e hI hV.1) hV.2

theorem pinv_prun (tr : List PlayEvent) (hV : PValidTrace tr) : PInv (prun tr) :=
  pinv_prunFrom tr pinit pinv_init hV

/-- In an invariant state whose last clock reading is at most `now`, scheduling
against the cursor agrees with scheduling against the last scheduled end. -/
theorem max_cursor_eq_max_lastEnd {s : PlayState} (hI : PInv s) {now : ℚ}
    (hclk : s.lastClock ≤ now) :
    max now s.nextStartTime = max now (lastEnd s.sched) := by
  obtain ⟨_, _, _, _, hlo, hhi⟩ := hI
  apply le_antisymm
  · have h1 : s.nextStartTime ≤ max now (lastEnd s.sched) := by
      refine le_trans hhi (max_le ?_ ?_)
      · exact le_trans hclk (le_max_left _ _)
      · exact le_max_right _ _
    exact max_le (le_max_left _ _) h1
  · exact max_le_max le_rfl hlo

/-- Claim C1: each inbound audio payload is scheduled at
`max(current device clock, previous entry's computed end time)`; consequently,
over any physically admissible sequence of arrivals and playback completions
(monotone device clock, nonnegative durations, completions at or after the
scheduled end), the scheduled start times are non-decreasing and no entry's
playback window overlaps the previous entry's window; and when the queue
drains to empty the cursor `nextStartTimeRef` is reset to the current device
clock. -/
theorem claim_c1 (tr : List PlayEvent) (hV : PValidTrace tr) :
    List.Chain' NoOverlap (prun tr).sched ∧
    List.Chain' StartMono (prun tr).sched ∧
    (∀ now dur, PValid (prun tr) (.audio now dur) →
      (pstep (.audio now dur) (prun tr)).sched
        = (prun tr).sched ++ [⟨max now (lastEnd (prun tr).sched), dur⟩]) ∧
    (∀ now, PValid (prun tr) (.ended now) → (prun tr).queue.tail = [] →
      (pstep (.ended now) (prun tr)).nextStartTime = now) := by
  have hI : PInv (prun tr) := pinv_prun tr hV
  refine ⟨hI.1, hI.2.1, ?_, ?_⟩
  · intro now dur hVa
    have hmax : max now (prun tr).nextStartTime = max now (lastEnd (prun tr).sched) :=
      max_cursor_eq_max_lastEnd hI hVa.2
    simp only [pstep, hmax]
  · intro now _ htail
    simp only [pstep, htail, List.isEmpty_nil, if_true]

/-- A concrete admissible trace: two bursty arrivals (the second arrives while
the first is still playing), a completion, a later arrival, and a completion
that leaves one live buffer. -/
def c1tr : List PlayEvent :=
  [.audio 0 1, .audio 0 1, .ended 2, .audio 3 2, .ended 6]

theorem claim_c1_witness :
    List.Chain' NoOverlap (prun c1tr).sched ∧
    (pstep (.audio 10 1) (prun c1tr)).sched
      = (prun c1tr).sched ++ [⟨max 10 (lastEnd (prun c1tr).sched), 1⟩] ∧
    (pstep (.ended 7) (prun c1tr)).nextStartTime = 7 := by
  have hval : PValidTrace c1tr := by
    norm_num [PValidTrace, PValidFrom, PValid, pstep, pinit, headEnd, c1tr,
      max_def]
    simp
  have h := claim_c1 c1tr hval
  refine ⟨h.1, h.2.2.1 10 1 ?_, h.2.2.2 7 ?_ ?_⟩ <;>
    norm_num [PValid, prun, prunFrom, pstep, pinit, headEnd, c1tr, max_def]

/-! ### Command channel (tool calls)

Translated from `src/hooks/useLiveSession.ts`, the `msg.toolCall` branch of
the `onmessage` callback:

```
if (msg.toolCall) {
    for (const fc of msg.toolCall.functionCalls) {
        if (fc.name === 'generate_system') {
            const desc = fc.args['system_description'] as string;
            if (onCommand) onCommand(desc);
            sessionPromise.then(session => {
                session.sendToolResponse({
                    functionResponses: {
                        id: fc.id,
                        name: fc.name,
                        response: { result: "ok, system generation started" }
                    }
                });
            });
        }
    }
}
```

There is no try/catch anywhere in this branch: an exception thrown by
`onCommand` aborts the loop before the acknowledgment line is reached and
escapes the (async) `onmessage` callback. -/

/-- One function-call invocation of an inbound message: its declared name,
its invocation identifier `fc.id`, and the declared
`system_description` argument payload. -/
structure FunctionCall where
  name : String
  id : String
  args : String
deriving DecidableEq, Repr

/-- Observable outcome of processing the tool-call list of one message:
the payloads with which the external handler `onCommand` was invoked, in
order; the acknowledgments scheduled through the transport
(`sendToolResponse`), as (invocation id, result) pairs in order; and the
exception, if any, that escaped the callback. -/
structure ToolOut where
  invoked : List String
  acks : List (String × String)
  exn : Option String
deriving DecidableEq, Repr

/-- The fixed acknowledgment result string sent for every handled call. -/
def ackResult : String := "ok, system generation started"

/-- The external handler: `none` means `onCommand` returned normally,
`some e` means it threw the exception `e`. -/
def Handler : Type := String → Option String

/-- Processing of `msg.toolCall.functionCalls`, translated from the source
loop above.  `onCommand` is the optional caller-supplied handler
(`useLiveSession`'s parameter); calls whose name is not `generate_system` are
skipped entirely; a matching call invokes the handler (when supplied) with its
declared payload and then schedules an acknowledgment tagged with the same
`fc.id`; a throwing handler aborts the loop with no acknowledgment for that
call and the exception escapes. -/
def handleToolCalls (onCommand : Option Handler) :
    List FunctionCall → ToolOut
  | [] => ⟨[], [], none⟩
  | fc :: rest =>
      if fc.name = "generate_system" then
        match onCommand with
        | none =>
            let out := handleToolCalls onCommand rest
            { out with acks := (fc.id, ackResult) :: out.acks }
        | some h =>
            match h fc.args with
            | none =>
                let out := handleToolCalls onCommand rest
                { invoked := fc.args :: out.invoked
                  acks := (fc.id, ackResult) :: out.acks
                  exn := out.exn }
            | some e => ⟨[fc.args], [], some e⟩
      else handleToolCalls onCommand rest

/-- The sublist of calls the loop body matches. -/
def matching (fcs : List FunctionCall) : List FunctionCall :=
  fcs.filter fun fc => fc.name == "generate_system"

/-- A handler that always throws, used to exercise the failure path. -/
def throwingHandler : Handler := fun _ => some "boom"

/-- A handler that always returns normally. -/
def okHandler : Handler := fun _ => none

/-- Claim C6 counterexample: for a message carrying one `generate_system`
invocation whose handler throws, no acknowledgment at all is sent — the
`sendToolResponse` line is never reached — and the exception escapes the
`onmessage` callback instead of being logged and swallowed.  This refutes
the claim that an acknowledgment tagged with the invocation identifier is
sent regardless of the handler's outcome. -/
theorem claim_c6_counterexample :
    handleToolCalls (some throwingHandler)
        [⟨"generate_system", "call-1", "warp drive"⟩]
      = ⟨["warp drive"], [], some "boom"⟩ := rfl

/-- Claim C6, amended: for every inbound message carrying command
invocations, the external handler is invoked at most once per matching
invocation, in order, with the declared argument payload.  When no
invocation throws, an acknowledgment tagged with the same invocation
identifier is sent for every matching invocation.  When an invocation
throws, acknowledgments have been sent exactly for the matching invocations
preceding it, the throwing invocation receives no acknowledgment, the
remaining invocations are not processed, and the exception escapes the
message callback (it is not swallowed and not logged). -/
theorem claim_c6 (h : Handler) (fcs : List FunctionCall) :
    ((handleToolCalls (some h) fcs).exn = none →
      (handleToolCalls (some h) fcs).invoked
        = (matching fcs).map FunctionCall.args ∧
      (handleToolCalls (some h) fcs).acks
        = (matching fcs).map fun fc => (fc.id, ackResult)) ∧
    ∀ e, (handleToolCalls (some h) fcs).exn = some e →
      ∃ k, k < (matching fcs).length ∧
        (handleToolCalls (some h) fcs).invoked
          = ((matching fcs).take (k + 1)).map FunctionCall.args ∧
        (handleToolCalls (some h) fcs).acks
          = ((matching fcs).take k).map (fun fc => (fc.id, ackResult)) ∧
        ∃ fc, (matching fcs).get? k = some fc ∧ h fc.args = some e := by
  induction fcs with
  | nil =>
      refine ⟨fun _ => ⟨rfl, rfl⟩, fun e he => ?_⟩
      simp [handleToolCalls] at he
  | cons fc rest ih =>
      by_cases hn : fc.name = "generate_system"
      · have hm : matching (fc :: rest) = fc :: matching rest := by
          simp [matching, hn]
        cases hh : h fc.args with
        | none =>
            refine ⟨?_, ?_⟩
            · intro hex
              simp only [handleToolCalls, if_pos hn, hh] at hex ⊢
              obtain ⟨hi, ha⟩ := ih.1 hex
              rw [hm]
              simp [hi, ha]
            · intro e he
              simp only [handleToolCalls, if_pos hn, hh] at he ⊢
              obtain ⟨k, hk, hi, ha, fc', hfc', hthrow⟩ := ih.2 e he
              refine ⟨k + 1, ?_, ?_, ?_, fc', ?_, hthrow⟩
              · rw [hm]; simpa using Nat.succ_lt_succ hk
              · rw [hm]; simp [hi]
              · rw [hm]; simp [ha]
              · rw [hm]; simpa using hfc'
        | some e0 =>
            refine ⟨?_, ?_⟩
            · intro hex
              simp only [handleToolCalls, if_pos hn, hh] at hex
              exact Option.noConfusion hex
            · intro e he
              simp only [handleToolCalls, if_pos hn, hh] at he ⊢
              obtain rfl : e0 = e := by simpa using he
              refine ⟨0, ?_, ?_, ?_, fc, ?_, hh⟩
              · rw [hm]; simp
              · rw [hm]; simp
              · rw [hm]; simp
              · rw [hm]; simp
      · have hm : matching (fc :: rest) = matching rest := by
          simp [matching, hn]
        have hout : handleToolCalls (some h) (fc :: rest)
            = handleToolCalls (some h) rest := by
          simp [handleToolCalls, hn]
        rw [hout, hm]
        exact ih

theorem claim_c6_witness :
    (handleToolCalls (some okHandler)
        [⟨"generate_system", "call-1", "tpu"⟩, ⟨"other", "call-2", "x"⟩]).acks
      = [("call-1", ackResult)] := by
  have h := (claim_c6 okHandler
      [⟨"generate_system", "call-1", "tpu"⟩, ⟨"other", "call-2", "x"⟩]).1 rfl
  simpa [matching] using h.2

/-! ### Session orchestrator

An event-step model of the whole `useLiveSession` hook.  The mutable refs and
React state cells become the program fields of `OState`; every asynchronous
callback of the hook (the `connect`/`disconnect` control surface, the
transport callbacks `onopen`/`onmessage`/`onclose`/`onerror`, the resolution
and rejection continuations of `sessionPromise`, the `setTimeout`
continuations, the `source.onended` callback and the outer catch of
`attemptConnection`) becomes one event of `OEvent`, processed atomically on
the single cooperative control timeline described by the source (no two
callbacks run concurrently).

A few ghost fields (not program variables) record where the current
connection attempt stands, so that physically impossible event orders — a
transport `onopen` without a pending `client.live.connect` call, a message
from a session that was already closed, an `onended` for a source that is no
longer queued — can be excluded by the `Permitted` side condition.  The model
tracks one connection attempt at a time, matching the source's design of one
session handle per connect cycle. -/

/-- The four UI voice states (`export type VoiceState`, line 5 of the
source). -/
inductive VoiceState
  | idle
  | listening
  | thinking
  | speaking
deriving DecidableEq, Repr

/-- State of the orchestrator.  Program fields: `intent` is
`shouldBeConnectedRef`, `ready` is `isReadyRef`, `activeSession` records
whether `activeSessionRef` holds a session handle, `retryCount` is
`retryCountRef`, `isConnected`/`voice`/`error`/`muted` are the React state
cells, `isPlaying` is `isPlayingRef`, `queueLen` is
`audioQueueRef.current.length`.  Ghost fields: `pendingAttempt` (an
`attemptConnection` invocation has passed its guard and its transport open is
still outstanding), `opened` (the current attempt's `onopen` fired),
`resolved` (the current attempt's `sessionPromise` settled successfully),
`sessionClosed` (the current attempt's session has been closed, or its close
has been requested, so it delivers no further transport events), `retryTimer`
/ `catchTimer` / `warmupTimer` (the corresponding `setTimeout` continuations
are outstanding), and `attempts` (how many `attemptConnection` invocations
have passed the guard). -/
structure OState where
  intent : Bool
  ready : Bool
  activeSession : Bool
  retryCount : Nat
  isConnected : Bool
  voice : VoiceState
  error : Option String
  muted : Bool
  isPlaying : Bool
  queueLen : Nat
  pendingAttempt : Bool
  opened : Bool
  resolved : Bool
  sessionClosed : Bool
  retryTimer : Bool
  catchTimer : Bool
  warmupTimer : Bool
  attempts : Nat
deriving DecidableEq, Repr

/-- The hook's initial state: all refs false/none/zero, voice idle. -/
def oinit : OState where
  intent := false
  ready := false
  activeSession := false
  retryCount := 0
  isConnected := false
  voice := .idle
  error := none
  muted := false
  isPlaying := false
  queueLen := 0
  pendingAttempt := false
  opened := false
  resolved := false
  sessionClosed := false
  retryTimer := false
  catchTimer := false
  warmupTimer := false
  attempts := 0

/-- One inbound transport message (`LiveServerMessage`): whether it carries an
audio payload (`msg.serverContent?.modelTurn?.parts?.[0]?.inlineData?.data`),
whether it carries the turn-complete marker, and its list of function-call
invocations (`msg.toolCall?.functionCalls`, empty when absent). -/
structure Msg where
  hasAudio : Bool
  turnComplete : Bool
  toolCalls : List FunctionCall
deriving DecidableEq, Repr

/-- Events driving the orchestrator: the two user calls, the transport
lifecycle callbacks of the current attempt, the settlement continuations of
`sessionPromise`, the three `setTimeout` continuations, a `source.onended`
playback completion, and a failure of the resource-setup part of
`attemptConnection` (its outer catch). -/
inductive OEvent
  | userConnect
  | userDisconnect
  | transportOpen
  | warmupTimeout
  | message (m : Msg)
  | playbackEnded
  | transportClose
  | transportError
  | retryTimeout
  | sessionResolved
  | sessionRejected
  | rejectTimeout
  | setupFailure
deriving DecidableEq, Repr

/-- The `disconnect` callback (lines 61-119): clears intent and readiness,
closes and uninstalls the session handle if one is installed, resets the UI
connection flag and the voice state, stops and clears the playback queue.
Note it does not touch `error`, `retryCount` or `muted`. -/
def disconnect (s : OState) : OState :=
  { s with
    intent := false
    ready := false
    activeSession := false
    sessionClosed := s.sessionClosed || s.activeSession
    isConnected := false
    voice := .idle
    queueLen := 0
    isPlaying := false }

/-- Ghost bookkeeping for one invocation of `attemptConnection` (line 131):
the guard returns at once when intent is false; otherwise a fresh pipeline and
a fresh `client.live.connect` call begin, superseding the previous attempt's
ghost flags. -/
def attemptStart (s : OState) : OState :=
  if s.intent then
    { s with
      pendingAttempt := true
      opened := false
      resolved := false
      sessionClosed := false
      attempts := s.attempts + 1 }
  else s

/-- The `connect` callback (lines 121-129): a no-op when intent already holds;
otherwise clear the error, un-mute, set intent, reset the retry counter to 0
and invoke `attemptConnection`. -/
def connect (s : OState) : OState :=
  if s.intent then s
  else
    attemptStart
      { s with error := none, muted := false, intent := true, retryCount := 0 }

/-- The `onopen` callback (lines 223-241): if intent was dropped while the
open was in flight, request the just-opened session's close through
`sessionPromise.then(s => s.close())` and return without marking connected;
otherwise mark connected, set the voice state to listening and start the
500ms warm-up timer. -/
def onopen (s : OState) : OState :=
  let s1 := { s with opened := true, pendingAttempt := false }
  if s1.intent = false then
    { s1 with sessionClosed := true }
  else
    { s1 with isConnected := true, voice := .listening, warmupTimer := true }

/-- The state effect of the `onmessage` callback (lines 242-307): dropped
entirely when intent is false; otherwise the turn-complete marker sets the
voice state to listening when nothing is playing, and an audio payload sets
the voice state to speaking, marks playing, and pushes one scheduled source
onto the queue.  The tool-call branch touches none of these fields (its
observable output is `msgToolOut` below). -/
def msgStateStep (m : Msg) (s : OState) : OState :=
  if s.intent = false then s
  else
    let s1 :=
      if m.turnComplete && !s.isPlaying then { s with voice := .listening }
      else s
    if m.hasAudio then
      { s1 with voice := .speaking, isPlaying := true, queueLen := s1.queueLen + 1 }
    else s1

/-- The command-channel output of the `onmessage` callback: nothing when
intent is false (the callback returns before the tool-call branch), else the
processing of the message's function calls. -/
def msgToolOut (onCommand : Option Handler) (m : Msg) (s : OState) : ToolOut :=
  if s.intent = false then ⟨[], [], none⟩
  else handleToolCalls onCommand m.toolCalls

/-- The `source.onended` callback (lines 277-285): splice the finished source
out of the queue; when the queue has become empty, clear the playing flag and
set the voice state to listening (the cursor reset is part of the playback
scheduler model). -/
def sourceEnded (s : OState) : OState :=
  let q := s.queueLen - 1
  if q = 0 then
    { s with queueLen := 0, isPlaying := false, voice := .listening }
  else { s with queueLen := q }

/-- The `onclose` callback (lines 309-315): an unexpected close while intent
holds triggers a full teardown; a close after the user disconnected is
ignored.  Either way the session delivers no further events. -/
def onclose (s : OState) : OState :=
  let s1 := { s with sessionClosed := true }
  if s1.intent then disconnect s1 else s1

/-- The `onerror` callback (lines 316-337): ignored when intent is false.
While fewer than 3 retries have been consumed, increment the retry counter,
clear readiness and start the 1000ms retry timer; otherwise set the terminal
"System Unreachable" error and tear down.  The failed transport delivers no
further events (ghost `sessionClosed`). -/
def onerror (s : OState) : OState :=
  let s1 := { s with pendingAttempt := false, sessionClosed := true }
  if s1.intent then
    if s1.retryCount < 3 then
      { s1 with
        retryCount := s1.retryCount + 1
        ready := false
        retryTimer := true }
    else
      disconnect { s1 with error := some "System Unreachable" }
  else s1

/-- The body of the onerror retry timer (lines 327-331): unconditionally
clean up partial state via `disconnect`, force intent back on, and re-invoke
`attemptConnection`. -/
def retryFire (s : OState) : OState :=
  let s1 := disconnect { s with retryTimer := false }
  attemptStart { s1 with intent := true }

/-- The resolution continuation of `sessionPromise` (lines 342-348): install
the session handle while intent holds; otherwise close the resolved handle
immediately and never install it. -/
def sessionResolve (s : OState) : OState :=
  let s1 := { s with resolved := true }
  if s1.intent then { s1 with activeSession := true }
  else { s1 with sessionClosed := true }

/-- The rejection continuation of `sessionPromise` (lines 349-361): ignored
when intent is false; while fewer than 3 retries have been consumed,
increment the retry counter and start the 1000ms catch timer; otherwise set
the terminal "Connection Failed" error and tear down. -/
def sessionReject (s : OState) : OState :=
  let s1 := { s with pendingAttempt := false }
  if s1.intent then
    if s1.retryCount < 3 then
      { s1 with retryCount := s1.retryCount + 1, catchTimer := true }
    else
      disconnect { s1 with error := some "Connection Failed" }
  else s1

/-- The body of the catch-path retry timer (line 355): re-invoke
`attemptConnection` (whose own guard aborts when intent was dropped). -/
def catchFire (s : OState) : OState :=
  attemptStart { s with catchTimer := false }

/-- The warm-up timer body (lines 236-240): mark ready only if intent still
holds when the 500ms delay expires. -/
def warmupFire (s : OState) : OState :=
  let s1 := { s with warmupTimer := false }
  if s1.intent then { s1 with ready := true } else s1

/-- The outer catch of `attemptConnection` (lines 425-431): a device or
setup failure sets the terminal "System Malfunction" error and tears down,
unless intent was already dropped. -/
def setupFail (s : OState) : OState :=
  let s1 := { s with pendingAttempt := false }
  if s1.intent then disconnect { s1 with error := some "System Malfunction" }
  else s1

/-- One orchestrator step: dispatch the event to the corresponding callback
translation. -/
def ostep (e : OEvent) (s : OState) : OState :=
  match e with
  | .userConnect => connect s
  | .userDisconnect => disconnect s
  | .transportOpen => onopen s
  | .warmupTimeout => warmupFire s
  | .message m => msgStateStep m s
  | .playbackEnded => sourceEnded s
  | .transportClose => onclose s
  | .transportError => onerror s
  | .retryTimeout => retryFire s
  | .sessionResolved => sessionResolve s
  | .sessionRejected => sessionReject s
  | .rejectTimeout => catchFire s
  | .setupFailure => setupFail s

/-- Run a chronological list of events from a given state. -/
def orunFrom (s : OState) : List OEvent → OState
  | [] => s
  | e :: tr => orunFrom (ostep e s) tr

/-- Run a chronological list of events from the initial state. -/
def orun (tr : List OEvent) : OState := orunFrom oinit tr

/-- Physical admissibility of an event in a state, the transport and timer
contract of the model: a connect call is modelled only once the previous
attempt's session is settled and closed (the model tracks one attempt at a
time); `onopen` fires only for an outstanding `client.live.connect`;
messages, closes and errors are delivered only by a session that opened and
has not been closed; errors may also abort an attempt before it opens;
promise settlement happens once, resolution only after open, rejection only
before; each timer continuation runs only while its timer is outstanding;
and an `onended` fires only for a source still in the queue (a source
stopped by teardown is modelled as delivering no further callbacks). -/
def Permitted (s : OState) : OEvent → Prop
  | .userConnect =>
      s.intent = true ∨
        (s.pendingAttempt = false ∧ (s.opened = true → s.sessionClosed = true))
  | .userDisconnect => True
  | .transportOpen => s.pendingAttempt = true
  | .warmupTimeout => s.warmupTimer = true
  | .message _ => s.opened = true ∧ s.sessionClosed = false
  | .playbackEnded => s.queueLen ≠ 0
  | .transportClose => s.opened = true ∧ s.sessionClosed = false
  | .transportError =>
      s.pendingAttempt = true ∨ (s.opened = true ∧ s.sessionClosed = false)
  | .retryTimeout => s.retryTimer = true
  | .sessionResolved => s.opened = true ∧ s.resolved = false
  | .sessionRejected => s.pendingAttempt = true
  | .rejectTimeout =>
      s.catchTimer = true ∧ s.pendingAttempt = false ∧ s.opened = false
  | .setupFailure => s.pendingAttempt = true

instance instDecPermitted (s : OState) (e : OEvent) : Decidable (Permitted s e) :=
  match e with
  | .userConnect => inferInstanceAs (Decidable (_ ∨ _))
  | .userDisconnect => inferInstanceAs (Decidable True)
  | .transportOpen => inferInstanceAs (Decidable (_ = _))
  | .warmupTimeout => inferInstanceAs (Decidable (_ = _))
  | .message _ => inferInstanceAs (Decidable (_ ∧ _))
  | .playbackEnded => inferInstanceAs (Decidable (_ ≠ _))
  | .transportClose => inferInstanceAs (Decidable (_ ∧ _))
  | .transportError => inferInstanceAs (Decidable (_ ∨ _))
  | .retryTimeout => inferInstanceAs (Decidable (_ = _))
  | .sessionResolved => inferInstanceAs (Decidable (_ ∧ _))
  | .sessionRejected => inferInstanceAs (Decidable (_ = _))
  | .rejectTimeout => inferInstanceAs (Decidable (_ ∧ _ ∧ _))
  | .setupFailure => inferInstanceAs (Decidable (_ = _))

/-- Every event of the trace is admissible in the state it meets. -/
def OValidFrom (s : OState) : List OEvent → Prop
  | [] => True
  | e :: tr => Permitted s e ∧ OValidFrom (ostep e s) tr

instance instDecOValidFrom (s : OState) (tr : List OEvent) :
    Decidable (OValidFrom s tr) :=
  match tr with
  | [] => inferInstanceAs (Decidable True)
  | e :: tr =>
      have := instDecOValidFrom (ostep e s) tr
      inferInstanceAs (Decidable (_ ∧ _))

/-- An admissible trace from the hook's initial state. -/
def OValidTrace (tr : List OEvent) : Prop := OValidFrom oinit tr

instance instDecOValidTrace (tr : List OEvent) : Decidable (OValidTrace tr) :=
  inferInstanceAs (Decidable (OValidFrom oinit tr))

/-- Reachability invariant of the orchestrator over admissible traces:
the `thinking` state is never assumed; the playing flag mirrors queue
nonemptiness; a dropped intent means the idle, torn-down state (no queued
audio, no installed handle, not connected); before the current attempt opens
the voice state is idle and the queue empty; a pending attempt has not
opened; an open, un-closed session under intent never sees the idle voice
state; and a nonempty queue means the speaking state. -/
def Inv (s : OState) : Prop :=
  s.voice ≠ .thinking ∧
  (s.isPlaying = true ↔ s.queueLen ≠ 0) ∧
  (s.intent = false → s.voice = .idle ∧ s.queueLen = 0 ∧
      s.activeSession = false ∧ s.isConnected = false) ∧
  (s.opened = false → s.voice = .idle ∧ s.queueLen = 0) ∧
  (s.pendingAttempt = true → s.opened = false) ∧
  (s.opened = true → s.sessionClosed = false → s.intent = true →
      s.voice ≠ .idle) ∧
  (s.queueLen ≠ 0 → s.voice = .speaking)

instance instDecInv (s : OState) : Decidable (Inv s) :=
  inferInstanceAs (Decidable (_ ∧ _ ∧ _ ∧ _ ∧ _ ∧ _ ∧ _))

theorem inv_oinit : Inv oinit := by decide

theorem inv_ostep (s : OState) (e : OEvent) (hI : Inv s) (hP : Permitted s e) :
    Inv (ostep e s) := by
  obtain ⟨h1, h2, h3, h4, h5, h6, h7⟩ := hI
  cases e <;>
    simp only [ostep, connect, disconnect, attemptStart, onopen, warmupFire,
      msgStateStep, sourceEnded, onclose, onerror, retryFire, sessionResolve,
      sessionReject, catchFire, setupFail, Inv, Permitted] at hP ⊢ <;>
    (try split_ifs) <;>
    simp_all

theorem inv_orunFrom (tr : List OEvent) :
    ∀ s : OState, Inv s → OValidFrom s tr → Inv (orunFrom s tr) := by
  induction tr with
  | nil => intro s hI _; exact hI
  | cons e tr ih =>
      intro s hI hV
      exact ih (ostep e s) (inv_ostep s e hI hV.1) hV.2

theorem inv_orun (tr : List OEvent) (hV : OValidTrace tr) : Inv (orun tr) :=
  inv_orunFrom tr oinit inv_oinit hV

/-- No single step raises the retry counter above 3: the only two increments
in the source (onerror line 323, catch line 354) are guarded by
`retryCountRef.current < 3`. -/
theorem retryCount_ostep_le (s : OState) (e : OEvent)
    (h : s.retryCount ≤ 3) : (ostep e s).retryCount ≤ 3 := by
  cases e <;>
    simp only [ostep, connect, disconnect, attemptStart, onopen, warmupFire,
      msgStateStep, sourceEnded, onclose, onerror, retryFire, sessionResolve,
      sessionReject, catchFire, setupFail] <;>
    (try split_ifs) <;>
    simp_all <;>
    omega

theorem retryCount_orunFrom_le (tr : List OEvent) :
    ∀ s : OState, s.retryCount ≤ 3 → (orunFrom s tr).retryCount ≤ 3 := by
  induction tr with
  | nil => intro s h; exact h
  | cons e tr ih => intro s h; exact ih (ostep e s) (retryCount_ostep_le s e h)

/-- The error cell only ever holds one of the three messages written by the
source (`setError` at lines 333, 357, 428), or nothing. -/
def ErrOK (o : Option String) : Prop :=
  o = none ∨ o = some "System Malfunction" ∨ o = some "System Unreachable" ∨
    o = some "Connection Failed"

theorem errOK_ostep (s : OState) (e : OEvent) (h : ErrOK s.error) :
    ErrOK (ostep e s).error := by
  cases e <;>
    simp only [ostep, connect, disconnect, attemptStart, onopen, warmupFire,
      msgStateStep, sourceEnded, onclose, onerror, retryFire, sessionResolve,
      sessionReject, catchFire, setupFail, ErrOK] at h ⊢ <;>
    (try split_ifs) <;>
    simp_all

theorem errOK_orunFrom (tr : List OEvent) :
    ∀ s : OState, ErrOK s.error → ErrOK (orunFrom s tr).error := by
  induction tr with
  | nil => intro s h; exact h
  | cons e tr ih => intro s h; exact ih (ostep e s) (errOK_ostep s e h)

/-- The voice-state transition relation the specification allows for each
event: every event may leave the voice state unchanged; additionally, the
open event under intent takes idle to listening, a message carrying audio
takes listening to speaking, a playback completion that drains the queue (or
a turn-complete with an empty queue) takes speaking to listening, and the
teardown-capable events may take any state to idle. -/
def VoiceTrans (e : OEvent) (s t : OState) : Prop :=
  match e with
  | .transportOpen =>
      t.voice = s.voice ∨
        (s.intent = true ∧ s.voice = .idle ∧ t.voice = .listening)
  | .message m =>
      t.voice = s.voice ∨
        (m.hasAudio = true ∧ s.voice = .listening ∧ t.voice = .speaking) ∨
        (m.turnComplete = true ∧ s.voice = .speaking ∧
          t.voice = .listening ∧ t.queueLen = 0)
  | .playbackEnded =>
      t.voice = s.voice ∨
        (s.voice = .speaking ∧ t.voice = .listening ∧ t.queueLen = 0)
  | .userDisconnect => t.voice = s.voice ∨ t.voice = .idle
  | .transportClose => t.voice = s.voice ∨ t.voice = .idle
  | .transportError => t.voice = s.voice ∨ t.voice = .idle
  | .retryTimeout => t.voice = s.voice ∨ t.voice = .idle
  | .sessionRejected => t.voice = s.voice ∨ t.voice = .idle
  | .setupFailure => t.voice = s.voice ∨ t.voice = .idle
  | _ => t.voice = s.voice

theorem voiceTrans_ostep (s : OState) (e : OEvent) (hI : Inv s)
    (hP : Permitted s e) : VoiceTrans e s (ostep e s) := by
  obtain ⟨h1, h2, h3, h4, h5, h6, h7⟩ := hI
  cases e <;>
    simp only [ostep, connect, disconnect, attemptStart, onopen, warmupFire,
      msgStateStep, sourceEnded, onclose, onerror, retryFire, sessionResolve,
      sessionReject, catchFire, setupFail, VoiceTrans, Permitted] at hP ⊢ <;>
    (try split_ifs) <;>
    (try cases hv : s.voice) <;>
    (try simp_all)

/-! ### The claims -/

/-- The four-failure trace: a user connect whose transport attempt fails
four times in a row, with the three backoff timers firing in between. -/
def c2tr : List OEvent :=
  [.userConnect, .transportError, .retryTimeout, .transportError,
   .retryTimeout, .transportError, .retryTimeout, .transportError]

/-- The same trace stopped after the third failure's backoff. -/
def c3tr : List OEvent :=
  [.userConnect, .transportError, .retryTimeout, .transportError,
   .retryTimeout, .transportError, .retryTimeout]

/-- Claim C2: along every event sequence the retry counter never exceeds
MAX_RETRIES = 3; an effective user connect resets it to 0; and a transport
failure arriving while intent holds with the counter exhausted (the 4th
consecutive failure of a connect cycle, as realised by the concrete trace
`c2tr`) sets the terminal retry-exhaustion error, tears everything down, and
clears intent.  On the `onerror` path the terminal message is the cited
"System Unreachable"; the analogous pre-open rejection path writes
"Connection Failed". -/
theorem claim_c2 :
    (∀ tr : List OEvent, (orun tr).retryCount ≤ 3) ∧
    (∀ s : OState, s.intent = false → (connect s).retryCount = 0) ∧
    (∀ s : OState, s.intent = true → s.retryCount = 3 →
      (onerror s).error = some "System Unreachable" ∧
      (onerror s).intent = false ∧ (onerror s).activeSession = false ∧
      (onerror s).isConnected = false ∧ (onerror s).voice = .idle ∧
      (onerror s).queueLen = 0 ∧ (onerror s).ready = false ∧
      (sessionReject s).error = some "Connection Failed" ∧
      (sessionReject s).intent = false) ∧
    OValidTrace c2tr ∧
    (orun c2tr).retryCount = 3 ∧
    (orun c2tr).error = some "System Unreachable" ∧
    (orun c2tr).intent = false := by
  refine ⟨?_, ?_, ?_, by decide, by decide, by decide, by decide⟩
  · intro tr
    exact retryCount_orunFrom_le tr oinit (by decide)
  · intro s h
    simp [connect, attemptStart, h]
  · intro s hint hrc
    constructor
    · simp [onerror, disconnect, hint, hrc]
    refine ⟨?_, ?_, ?_, ?_, ?_, ?_, ?_, ?_⟩ <;>
      simp [onerror, sessionReject, disconnect, hint, hrc]

theorem claim_c2_witness :
    (connect oinit).retryCount = 0 ∧
    (onerror (orun c3tr)).error = some "System Unreachable" := by
  refine ⟨claim_c2.2.1 oinit rfl, ?_⟩
  have h := (claim_c2.2.2.1 (orun c3tr) (by decide) (by decide)).1
  exact h

/-- Claim C3 counterexample: after a user-initiated connect, exactly three
consecutive on-error events (each followed by its backoff timer) produce
three reconnection attempts — `attempts = 4` counts the initial
`attemptConnection` plus the three re-invocations — yet no terminal error
has been set and no final teardown has happened: the error cell is still
empty and intent still holds, with the third reconnection attempt in flight.
This refutes the claim that three consecutive on-error events already end in
the terminal "System Unreachable" error and full teardown; a fourth failure
is required. -/
theorem claim_c3_counterexample :
    OValidTrace c3tr ∧
    (orun c3tr).attempts = 4 ∧
    (orun c3tr).retryCount = 3 ∧
    (orun c3tr).error = none ∧
    (orun c3tr).intent = true ∧
    (orun c3tr).pendingAttempt = true := by
  decide

/-- Claim C3, amended: if four consecutive on-error events occur after a
user-initiated connect and before any on-open success, then exactly 3
reconnection attempts are performed (the initial `attemptConnection` plus
three re-invocations makes `attempts = 4`), after which the terminal
"System Unreachable" error is set and full teardown is performed. -/
theorem claim_c3 :
    OValidTrace c2tr ∧
    (orun c2tr).attempts = 4 ∧
    (orun c2tr).error = some "System Unreachable" ∧
    (orun c2tr).intent = false ∧
    (orun c2tr).activeSession = false ∧
    (orun c2tr).isConnected = false ∧
    (orun c2tr).voice = .idle ∧
    (orun c2tr).queueLen = 0 ∧
    (orun c2tr).ready = false := by
  decide

/-- Claim C4: when intent has been dropped while a transport-open attempt is
in flight, the session promise's resolution closes the resolved handle at
once and never installs it (`activeSession` stays absent), and the session
can no longer be resolved again; likewise an `onopen` firing after intent is
false requests the just-opened session's close and does not mark the UI
connected or change the voice state. -/
theorem claim_c4 (s : OState) (hI : Inv s) (hint : s.intent = false) :
    (sessionResolve s).sessionClosed = true ∧
    (sessionResolve s).activeSession = false ∧
    (sessionResolve s).isConnected = false ∧
    ¬ Permitted (sessionResolve s) .sessionResolved ∧
    (onopen s).sessionClosed = true ∧
    (onopen s).isConnected = false ∧
    (onopen s).voice = s.voice := by
  obtain ⟨-, -, h3, -, -, -, -⟩ := hI
  obtain ⟨-, -, hact, hconn⟩ := h3 hint
  refine ⟨?_, ?_, ?_, ?_, ?_, ?_, ?_⟩ <;>
    simp [sessionResolve, onopen, Permitted, hint, hact, hconn]

/-- A connect immediately followed by a disconnect: the transport open is
still in flight and intent is false. -/
def c4tr : List OEvent := [.userConnect, .userDisconnect]

theorem claim_c4_witness :
    (sessionResolve (orun c4tr)).activeSession = false ∧
    (onopen (orun c4tr)).isConnected = false := by
  have h := claim_c4 (orun c4tr) (by decide) (by decide)
  exact ⟨h.2.1, h.2.2.2.2.2.1⟩

/-- A trace reaching `retryCount = 2` with intent still held. -/
def c5tr : List OEvent :=
  [.userConnect, .transportError, .retryTimeout, .transportError]

/-- Claim C5 counterexample: `disconnect` does not reset the retry counter.
After a connect followed by two transport failures the counter is 2, and a
user-initiated disconnect leaves it at 2, refuting "a user-initiated
disconnect() unconditionally resets RetryCounter to 0".  (The counter is
reset by the next effective `connect()` instead.) -/
theorem claim_c5_counterexample :
    OValidTrace c5tr ∧
    (orun c5tr).retryCount = 2 ∧
    (disconnect (orun c5tr)).retryCount = 2 := by
  decide

/-- Claim C5, amended: a user-initiated disconnect leaves RetryCounter
unchanged (it is the next effective connect() that resets it to 0), and
RetryCounter increases only while ConnectionIntent is true and only in the
two transport-failure handlers inside attemptConnection's lifecycle
(`onerror` and the `sessionPromise` rejection handler). -/
theorem claim_c5 :
    (∀ s : OState, (disconnect s).retryCount = s.retryCount) ∧
    (∀ s : OState, s.intent = false → (connect s).retryCount = 0) ∧
    (∀ (s : OState) (e : OEvent), s.retryCount < (ostep e s).retryCount →
      s.intent = true ∧ (e = .transportError ∨ e = .sessionRejected)) := by
  refine ⟨fun s => rfl, ?_, ?_⟩
  · intro s h
    simp [connect, attemptStart, h]
  · intro s e h
    cases e <;>
      simp only [ostep, connect, disconnect, attemptStart, onopen, warmupFire,
        msgStateStep, sourceEnded, onclose, onerror, retryFire, sessionResolve,
        sessionReject, catchFire, setupFail] at h <;>
      (try split_ifs at h) <;>
      simp_all

theorem claim_c5_witness :
    (disconnect (orun c5tr)).retryCount = (orun c5tr).retryCount ∧
    (connect oinit).retryCount = 0 ∧
    (orun c5tr).intent = true :=
  ⟨claim_c5.1 (orun c5tr), claim_c5.2.1 oinit rfl,
    (claim_c5.2.2 (orun c5tr) .transportError (by decide)).1⟩

/-- Four consecutive pre-open rejections of `sessionPromise`. -/
def c7a : List OEvent :=
  [.userConnect, .sessionRejected, .rejectTimeout, .sessionRejected,
   .rejectTimeout, .sessionRejected, .rejectTimeout, .sessionRejected]

/-- A connect whose device/resource setup throws. -/
def c7c : List OEvent := [.userConnect, .setupFailure]

/-- Claim C7 counterexample: three pairwise distinct error messages are
reachable, not two.  Retry exhaustion surfaces "System Unreachable" on the
mid-session `onerror` path but "Connection Failed" on the pre-open
rejection path, and setup failure surfaces "System Malfunction"; so the
user-visible last-error value is not confined to one device/initialization
message plus one retry-exhaustion message. -/
theorem claim_c7_counterexample :
    OValidTrace c7a ∧ (orun c7a).error = some "Connection Failed" ∧
    OValidTrace c2tr ∧ (orun c2tr).error = some "System Unreachable" ∧
    OValidTrace c7c ∧ (orun c7c).error = some "System Malfunction" ∧
    ("Connection Failed" ≠ "System Unreachable" ∧
      "Connection Failed" ≠ "System Malfunction" ∧
      "System Unreachable" ≠ "System Malfunction") := by
  decide

/-- Claim C7, amended: in every execution the user-visible last-error value
is absent or one of exactly three terminal messages: the
device/initialization failure message "System Malfunction", and two
retry-exhaustion messages — "System Unreachable" for mid-session transport
errors and "Connection Failed" for failures of the initial transport-open
negotiation.  No other error message is ever surfaced. -/
theorem claim_c7 (tr : List OEvent) :
    (orun tr).error = none ∨
    (orun tr).error = some "System Malfunction" ∨
    (orun tr).error = some "System Unreachable" ∨
    (orun tr).error = some "Connection Failed" :=
  errOK_orunFrom tr oinit (Or.inl rfl)

/-- Claim C8: over every admissible trace the voice state is never
`thinking`, and each admissible event changes the voice state only as the
specification allows: it leaves it unchanged, or takes idle to listening on
the open event under intent, listening to speaking on a message carrying an
audio frame, speaking to listening when the playback queue drains to empty
(or a turn-complete arrives with an empty queue), or any state to idle on a
teardown-capable event. -/
theorem claim_c8 (tr : List OEvent) (e : OEvent) (hV : OValidTrace tr)
    (hP : Permitted (orun tr) e) :
    (orun tr).voice ≠ .thinking ∧
    (ostep e (orun tr)).voice ≠ .thinking ∧
    VoiceTrans e (orun tr) (ostep e (orun tr)) := by
  have hI : Inv (orun tr) := inv_orun tr hV
  have hI2 : Inv (ostep e (orun tr)) := inv_ostep (orun tr) e hI hP
  exact ⟨hI.1, hI2.1, voiceTrans_ostep (orun tr) e hI hP⟩

/-- A connected session receiving one audio frame. -/
def c8tr : List OEvent :=
  [.userConnect, .transportOpen, .sessionResolved,
   .message ⟨true, false, []⟩]

theorem claim_c8_witness :
    (orun c8tr).voice ≠ .thinking ∧
    VoiceTrans .playbackEnded (orun c8tr) (ostep .playbackEnded (orun c8tr)) := by
  have h := claim_c8 c8tr .playbackEnded (by decide) (by decide)
  exact ⟨h.1, h.2.2⟩

/-- Claim C9: an invocation whose name is not `generate_system` is ignored
entirely — removing it from a message changes neither the command-channel
output (the handler is not invoked for it and no acknowledgment carries its
identifier) nor the state effect of the message (audio and turn-complete
handling are unchanged), while the other invocations of the same message are
still processed. -/
theorem claim_c9 (onCmd : Option Handler) (pre post : List FunctionCall)
    (bad : FunctionCall) (hname : bad.name ≠ "generate_system") :
    handleToolCalls onCmd (pre ++ bad :: post)
      = handleToolCalls onCmd (pre ++ post) ∧
    (∀ (a t : Bool) (s : OState),
      msgStateStep ⟨a, t, pre ++ bad :: post⟩ s
        = msgStateStep ⟨a, t, pre ++ post⟩ s) ∧
    (∀ (a t : Bool) (s : OState),
      msgToolOut onCmd ⟨a, t, pre ++ bad :: post⟩ s
        = msgToolOut onCmd ⟨a, t, pre ++ post⟩ s) := by
  have h1 : handleToolCalls onCmd (pre ++ bad :: post)
      = handleToolCalls onCmd (pre ++ post) := by
    induction pre with
    | nil => simp [handleToolCalls, hname]
    | cons fc pre ih =>
        by_cases hn : fc.name = "generate_system"
        · cases onCmd with
          | none => simp [handleToolCalls, hn, ih]
          | some h =>
              cases hh : h fc.args with
              | none => simp [handleToolCalls, hn, hh, ih]
              | some e0 => simp [handleToolCalls, hn, hh]
        · simp [handleToolCalls, hn, ih]
  refine ⟨h1, fun a t s => rfl, fun a t s => ?_⟩
  simp only [msgToolOut]
  split_ifs <;> simp [h1]

theorem claim_c9_witness :
    handleToolCalls (some okHandler)
        ([⟨"generate_system", "call-1", "tpu"⟩] ++
          ⟨"other_tool", "call-2", "x"⟩ :: [])
      = handleToolCalls (some okHandler)
        ([⟨"generate_system", "call-1", "tpu"⟩] ++ []) :=
  (claim_c9 (some okHandler) [⟨"generate_system", "call-1", "tpu"⟩] []
    ⟨"other_tool", "call-2", "x"⟩ (by decide)).1

/-- Claim C10: `disconnect` leaves the stored error untouched in every state,
so a terminal error remains readable after full teardown; and the error cell
is cleared only by an effective `connect()` (for every event, if the stored
error goes from present to absent, the event was the user connect). -/
theorem claim_c10 :
    (∀ s : OState, (disconnect s).error = s.error) ∧
    (∀ s : OState, s.intent = false → (connect s).error = none) ∧
    (∀ (s : OState) (e : OEvent) (m : String), s.error = some m →
      (ostep e s).error = none → e = .userConnect) := by
  refine ⟨fun s => rfl, ?_, ?_⟩
  · intro s h
    simp [connect, attemptStart, h]
  · intro s e m hm hnone
    cases e <;>
      simp only [ostep, connect, disconnect, attemptStart, onopen, warmupFire,
        msgStateStep, sourceEnded, onclose, onerror, retryFire, sessionResolve,
        sessionReject, catchFire, setupFail] at hnone <;>
      (try split_ifs at hnone) <;>
      simp_all

theorem claim_c10_witness :
    (disconnect (orun c2tr)).error = (orun c2tr).error ∧
    (connect oinit).error = none :=
  ⟨claim_c10.1 (orun c2tr), claim_c10.2.1 oinit rfl⟩
